import Mathlib

set_option maxHeartbeats 1000000

namespace GoCtx

/-- The two sentinel error values of the repository:
`CanceledError = errors.New("context canceled")` (withcancel.go) and
`DeadlineExceeded` (`deadlineExceededError`, the file also defining
`Timeout() bool { return true }`).  They are opaque comparison tokens. -/
inductive GoError where
  | canceled
  | deadlineExceeded
deriving DecidableEq, Repr

/-- A Go `interface{}` value, as used for keys and values of `valueCtx`.
`isNil` models the nil interface, `isComparable` models
`reflect.TypeOf(key).Comparable()`, and `tag` distinguishes values so that
Go interface equality `==` becomes structural equality of `GoVal`. -/
structure GoVal where
  isNil : Bool
  isComparable : Bool
  tag : Nat
deriving DecidableEq, Repr

/-- The nil interface value (what `Value` returns when no key matches). -/
def nilVal : GoVal := { isNil := true, isComparable := true, tag := 0 }

/-- A reference to a `Context` node.  The inductive value carries exactly the
fields that are immutable after construction in the Go code: the parent link
(`cancelCtx.Context` / `valueCtx.Context`), a timer node's fixed `deadline`,
and a value node's key/value pair.  Mutable state (`err`, `done`, `children`,
`timer`) lives in the `World` heap, indexed by the node id.
`cref` is a `*cancelCtx`, `tref` a `*timerCtx`, `vnode` a `*valueCtx`.
`background` is Modelled from the spec (the Background root is called from
main.go but its definition is not under src/): a never-cancelled root whose
done channel is nil, with no deadline, no error and no values. -/
inductive Ctx where
  | background
  | cref (id : Nat) (parent : Ctx)
  | tref (id : Nat) (deadline : Int) (parent : Ctx)
  | vnode (parent : Ctx) (key val : GoVal)
deriving DecidableEq, Repr

/-- The mutable state of one cancelable node (a `cancelCtx`, or the
`cancelCtx` embedded in a `timerCtx`): the parent `Context` field, the error
slot (`err error`, set by the first cancel call), whether `close(c.done)` has
happened, the child set (`children map[canceler]bool`; `none` models the nil
map and `some` the allocated map, holding the heap ids of the registered
canceler children), the dynamic type (`isTimer` is true for a `*timerCtx`),
and whether `c.timer` is non-nil (armed). -/
structure CNode where
  parent : Ctx
  err : Option GoError
  doneClosed : Bool
  children : Option (List Nat)
  isTimer : Bool
  timer : Bool
deriving DecidableEq, Repr

/-- `newCancelCtx returns an initialized cancelCtx` — fresh node with a new
open done channel, nil children map, nil error. -/
def newCancelCtx (parent : Ctx) : CNode :=
  { parent := parent, err := none, doneClosed := false, children := none,
    isTimer := false, timer := false }

/-- A fresh `timerCtx` (`&timerCtx{cancelCtx: newCancelCtx(parent), deadline: d}`);
the deadline itself is carried by the `Ctx.tref` reference. -/
def newTimerNode (parent : Ctx) : CNode :=
  { parent := parent, err := none, doneClosed := false, children := none,
    isTimer := true, timer := false }

/-- The heap of cancelable nodes: `size` is the number of allocated nodes
(ids `0..size-1`), `nodes` maps an id to its mutable state, and `obs` records
the fallback observer goroutines spawned by `propagateCancel` (the pair is
the parent context the goroutine selects on, and the child id it would
cancel). -/
structure World where
  size : Nat
  nodes : Nat → CNode
  obs : List (Ctx × Nat)

/-- The world before any derivation: no nodes, no observers. -/
def emptyWorld : World :=
  { size := 0, nodes := fun _ => newCancelCtx Ctx.background, obs := [] }

/-- Replace node `i` by `f` of its current state (a mutation under `c.mu`). -/
def updNode (w : World) (i : Nat) (f : CNode → CNode) : World :=
  { w with nodes := Function.update w.nodes i (f (w.nodes i)) }

/-- Allocate a new node at id `w.size`. -/
def allocNode (w : World) (nd : CNode) : World :=
  { size := w.size + 1, nodes := Function.update w.nodes w.size nd, obs := w.obs }

/-- Whether `c.Done()` is the nil channel.  A `cancelCtx` / `timerCtx` returns
its own (non-nil) `done` channel; a `valueCtx` promotes the embedded parent's
`Done`.  The Background root's nil done channel is Modelled from the spec
(root: "doneSignal = permanently-open/never-fires handle", and
`propagateCancel` treats such a parent as never canceled). -/
def doneIsNil : Ctx → Bool
  | Ctx.background => true
  | Ctx.cref _ _ => false
  | Ctx.tref _ _ _ => false
  | Ctx.vnode p _ _ => doneIsNil p

/-- Whether the one-shot done channel of `c` has fired (been closed).
Background never fires (Modelled from the spec); value nodes delegate. -/
def ctxDoneClosed (w : World) : Ctx → Bool
  | Ctx.background => false
  | Ctx.cref id _ => (w.nodes id).doneClosed
  | Ctx.tref id _ _ => (w.nodes id).doneClosed
  | Ctx.vnode p _ _ => ctxDoneClosed w p

/-- `Err()`: a `cancelCtx` (and a `timerCtx`, which embeds it) returns its own
`c.err` under the lock; a `valueCtx` delegates to its parent; Background's
nil error is Modelled from the spec. -/
def ctxErr (w : World) : Ctx → Option GoError
  | Ctx.background => none
  | Ctx.cref id _ => (w.nodes id).err
  | Ctx.tref id _ _ => (w.nodes id).err
  | Ctx.vnode p _ _ => ctxErr w p

/-- `Deadline()`: only `timerCtx` declares a deadline (`return c.deadline,
true`); `cancelCtx` and `valueCtx` promote the embedded parent's `Deadline`;
Background has none (Modelled from the spec).  `none` is `ok == false`. -/
def ctxDeadline : Ctx → Option Int
  | Ctx.background => none
  | Ctx.cref _ p => ctxDeadline p
  | Ctx.tref _ d _ => some d
  | Ctx.vnode p _ _ => ctxDeadline p

/-- `Value(key)`: `valueCtx.Value` returns its own `val` if `c.key == key`
and otherwise delegates to the embedded parent; `cancelCtx`/`timerCtx`
promote the parent's `Value`; Background returns nil (Modelled from the
spec: the root carries no values). -/
def ctxValue : Ctx → GoVal → GoVal
  | Ctx.background, _ => nilVal
  | Ctx.cref _ p, k => ctxValue p k
  | Ctx.tref _ _ p, k => ctxValue p k
  | Ctx.vnode p key val, k => if key = k then val else ctxValue p k

/-- `parentCancelCtx` follows the parent reference and returns it when the
dynamic type is exactly `*cancelCtx` (the Go type switch has only that one
case; a `*timerCtx`, `*valueCtx` or the root falls into `default`, returning
`nil, false`). -/
def parentCancelCtx : Ctx → Option Nat
  | Ctx.cref id _ => some id
  | _ => none

/-- `removeChild(parent, child)`: locate the parent `*cancelCtx`; if its
children map is non-nil, delete the child from it. -/
def removeChild (parent : Ctx) (childId : Nat) (w : World) : World :=
  match parentCancelCtx parent with
  | none => w
  | some pid =>
    match (w.nodes pid).children with
    | none => w
    | some kids =>
      updNode w pid fun m => { m with children := some (kids.filter (fun k => k != childId)) }

/-- The under-the-lock body of `cancelCtx.cancel` once the node is known to
be uncancelled: record the error and close the done channel (`c.err = err;
close(c.done)`), cancel every registered child through the `canceler`
interface (`recur`) with `removeFromParent = false`, then set the children
map to nil. -/
def cancelLocked (recur : Nat → Bool → GoError → World → World)
    (id : Nat) (e : GoError) (w : World) : World :=
  updNode
    (((w.nodes id).children.getD []).foldl (fun acc k => recur k false e acc)
      (updNode w id fun m => { m with err := some e, doneClosed := true }))
    id (fun m => { m with children := none })

/-- `cancelCtx.cancel(removeFromParent, err)`: under the lock, return if
already canceled, otherwise run the locked body, and finally (outside the
lock) detach from the parent's children when requested
(`removeChild(c.Context, c)`).  The Go function panics when `err == nil`;
the `GoError` argument makes a nil error unrepresentable, so that branch is
vacuous here. -/
def cancelCtxCancel (recur : Nat → Bool → GoError → World → World)
    (id : Nat) (removeFromParent : Bool) (e : GoError) (w : World) : World :=
  if (w.nodes id).err ≠ none then w
  else if removeFromParent then
    removeChild (w.nodes id).parent id (cancelLocked recur id e w)
  else cancelLocked recur id e w

/-- The detach step of `timerCtx.cancel`: remove this timer node from its
parent `cancelCtx`'s children when requested. -/
def timerDetach (removeFromParent : Bool) (id : Nat) (w : World) : World :=
  if removeFromParent then removeChild ((w.nodes id).parent) id w else w

/-- The timer-release step of `timerCtx.cancel`: under the lock, if
`c.timer != nil`, stop it and set it to nil. -/
def stopTimer (id : Nat) (w : World) : World :=
  updNode w id fun m => if m.timer then { m with timer := false } else m

/-- `timerCtx.cancel(removeFromParent, err)`: delegate to the embedded
`cancelCtx.cancel(false, err)`, remove this timer node from its parent's
children when requested, then stop and release the timer if still armed. -/
def timerCtxCancel (recur : Nat → Bool → GoError → World → World)
    (id : Nat) (removeFromParent : Bool) (e : GoError) (w : World) : World :=
  stopTimer id (timerDetach removeFromParent id (cancelCtxCancel recur id false e w))

/-- The `canceler` interface dispatch: `child.cancel(removeFromParent, err)`
runs `*timerCtx.cancel` or `*cancelCtx.cancel` according to the node's
dynamic type.  The fuel argument bounds the cascade depth (the Go recursion
terminates because the child graph is acyclic); callers pass at least
`w.size + 1`, which covers every acyclic cascade. -/
def cancelerCancel : Nat → Nat → Bool → GoError → World → World
  | 0, _, _, _, w => w
  | fuel + 1, id, removeFromParent, e, w =>
    if (w.nodes id).isTimer then
      timerCtxCancel (cancelerCancel fuel) id removeFromParent e w
    else
      cancelCtxCancel (cancelerCancel fuel) id removeFromParent e w

/-- `propagateCancel(parent, child)`: nothing to do when the parent can
never be canceled (`parent.Done() == nil`); when the parent is recognized as
a `*cancelCtx`, under its lock either cancel the child immediately with the
parent's recorded error (parent already canceled) or add the child to the
children map (allocating it if nil); otherwise spawn the fallback observer
goroutine that selects on the two done channels (recorded in `obs`; its
asynchronous effect is outside this sequential model). -/
def propagateCancel (parent : Ctx) (childId : Nat) (w : World) : World :=
  if doneIsNil parent then w
  else
    match parentCancelCtx parent with
    | some pid =>
      match (w.nodes pid).err with
      | some e => cancelerCancel (w.size + 1) childId false e w
      | none =>
        updNode w pid fun m => { m with children := some (m.children.getD [] ++ [childId]) }
    | none => { w with obs := w.obs ++ [(parent, childId)] }

/-- `WithCancel(parent)`: allocate `newCancelCtx(parent)` at id `w.size`,
link it with `propagateCancel`, return the new context (the paired cancel
function is `cancelCall · GoError.canceled`). -/
def withCancel (parent : Ctx) (w : World) : World × Ctx :=
  (propagateCancel parent w.size (allocNode w (newCancelCtx parent)), Ctx.cref w.size parent)

/-- The body of a returned `CancelFunc` — `c.cancel(true, CanceledError)` —
and, with `e := GoError.deadlineExceeded`, of the timer callback
`c.cancel(true, DeadlineExceeded)`.  Dispatches through the `canceler`
interface on the captured node. -/
def cancelCall (c : Ctx) (e : GoError) (w : World) : World :=
  match c with
  | Ctx.cref id _ => cancelerCancel (w.size + 1) id true e w
  | Ctx.tref id _ _ => cancelerCancel (w.size + 1) id true e w
  | _ => w

/-- Arming the deadline timer (`c.mu.Lock(); if c.err == nil { c.timer =
time.AfterFunc(d, ...) }`): only when the node was not canceled during
linkage. -/
def armTimer (id : Nat) (w : World) : World :=
  if (w.nodes id).err = none then updNode w id fun m => { m with timer := true } else w

/-- The tail of the timer branch of `WithDeadline`: with the remaining
duration `d = deadline - now`, either cancel the fresh node at once with
`DeadlineExceeded` (`d <= 0`: the deadline has already passed) or arm the
timer. -/
def withDeadlineFinish (deadline now : Int) (id : Nat) (w : World) : World :=
  if deadline - now ≤ 0 then cancelerCancel (w.size + 1) id true GoError.deadlineExceeded w
  else armTimer id w

/-- The timer-node branch of `WithDeadline` (everything after the
early-deadline test): build the `timerCtx` at id `w.size`, link it with
`propagateCancel`, then run `withDeadlineFinish`. -/
def withDeadlineTimer (parent : Ctx) (deadline now : Int) (w : World) : World × Ctx :=
  (withDeadlineFinish deadline now w.size
      (propagateCancel parent w.size (allocNode w (newTimerNode parent))),
    Ctx.tref w.size deadline parent)

/-- `WithDeadline(parent, d)`: when the parent's current deadline is already
strictly sooner (`cur.Before(deadline)`), degrade to `WithCancel(parent)`;
otherwise build and arm a timer node.  `now` stands for `time.Now()`. -/
def withDeadline (parent : Ctx) (deadline now : Int) (w : World) : World × Ctx :=
  match ctxDeadline parent with
  | some cur =>
    if cur < deadline then withCancel parent w
    else withDeadlineTimer parent deadline now w
  | none => withDeadlineTimer parent deadline now w

/-- `WithTimeout(parent, timeout) = WithDeadline(parent, time.Now().Add(timeout))`. -/
def withTimeout (parent : Ctx) (timeout now : Int) (w : World) : World × Ctx :=
  withDeadline parent (now + timeout) now w

/-- `WithValue(parent, key, val)`: panic on a nil key, panic on a key that is
not comparable, otherwise return `&valueCtx{parent, key, val}`.  The two
panics are modelled as `Except.error` with the panic message. -/
def withValue (parent : Ctx) (key val : GoVal) : Except String Ctx :=
  if key.isNil then Except.error "nil key"
  else if key.isComparable = false then Except.error "key is not comparable"
  else Except.ok (Ctx.vnode parent key val)

/-- The worlds reachable by the public operations: the empty world, a
`WithCancel` or `WithDeadline` derivation from any context value, a call of a
returned cancel function (or the internal `cancel(true, e)`), and a timer
firing (`c.cancel(true, DeadlineExceeded)` on an armed timer node). -/
inductive Reachable : World → Prop where
  | init : Reachable emptyWorld
  | withCancelStep (p : Ctx) (w : World) : Reachable w → Reachable (withCancel p w).1
  | withDeadlineStep (p : Ctx) (d now : Int) (w : World) :
      Reachable w → Reachable (withDeadline p d now w).1
  | cancelStep (c : Ctx) (e : GoError) (w : World) : Reachable w → Reachable (cancelCall c e w)
  | timerFire (id : Nat) (w : World) :
      Reachable w → Reachable (cancelerCancel (w.size + 1) id true GoError.deadlineExceeded w)

/-- The per-node one-shot invariant: the done channel has been closed exactly
when the error slot is non-nil. -/
def Inv (w : World) : Prop :=
  ∀ j, (w.nodes j).doneClosed = ((w.nodes j).err).isSome

/-- Facts about one node preserved by every cancellation step: the parent
link and dynamic type never change, a recorded error is never overwritten,
a released timer is never re-armed, and a closed done channel stays closed. -/
def PresNode (m mm : CNode) : Prop :=
  mm.parent = m.parent ∧ mm.isTimer = m.isTimer ∧
  (∀ x, m.err = some x → mm.err = some x) ∧
  (m.timer = false → mm.timer = false) ∧
  (m.doneClosed = true → mm.doneClosed = true)

/-- World-level preservation: size and observer list unchanged, and every
node satisfies `PresNode`. -/
def Pres (w ww : World) : Prop :=
  ww.size = w.size ∧ ww.obs = w.obs ∧ ∀ j, PresNode (w.nodes j) (ww.nodes j)

/-- The `WithCancel` chain of the cancellation-cascade test: node `0` under
Background, and node `m + 1` derived from node `m`.  Every link goes through
the registry path because every parent is a plain `*cancelCtx`. -/
def buildChain : Nat → World × Ctx
  | 0 => withCancel Ctx.background emptyWorld
  | n + 1 => withCancel (buildChain n).2 (buildChain n).1

/-- The context value of node `m` of the chain. -/
def chainCtx : Nat → Ctx
  | 0 => Ctx.cref 0 Ctx.background
  | m + 1 => Ctx.cref (m + 1) (chainCtx m)

/-- The parent context of node `j` of the chain. -/
def chainParent : Nat → Ctx
  | 0 => Ctx.background
  | j + 1 => chainCtx j

/-- The heap state of node `j` after building a chain of `n + 1` nodes:
each non-last node has exactly its successor registered as a child. -/
def chainNodeAt (n j : Nat) : CNode :=
  if j ≤ n then
    { parent := chainParent j, err := none, doneClosed := false,
      children := if j < n then some [j + 1] else none, isTimer := false, timer := false }
  else newCancelCtx Ctx.background

/-- The observable result of cancelling a node: error recorded, done channel
closed, children map nil. -/
def markCancelled (e : GoError) (m : CNode) : CNode :=
  { m with err := some e, doneClosed := true, children := none }

/-- The world in which all chain nodes `i..n` have been cancelled with `e`
and the rest is untouched. -/
def markChainFrom (e : GoError) (i n : Nat) (w : World) : World :=
  { w with nodes := fun j => if i ≤ j ∧ j ≤ n then markCancelled e (w.nodes j) else w.nodes j }

theorem updNode_nodes_self (w : World) (i : Nat) (f : CNode → CNode) :
    (updNode w i f).nodes i = f (w.nodes i) := by
  simp [updNode]

theorem updNode_nodes_ne (w : World) (i : Nat) (f : CNode → CNode) (j : Nat) (h : j ≠ i) :
    (updNode w i f).nodes j = w.nodes j := by
  simp [updNode, Function.update_noteq h]

theorem updNode_size (w : World) (i : Nat) (f : CNode → CNode) :
    (updNode w i f).size = w.size := rfl

theorem updNode_obs (w : World) (i : Nat) (f : CNode → CNode) :
    (updNode w i f).obs = w.obs := rfl

theorem presNode_refl (m : CNode) : PresNode m m := by
  refine ⟨rfl, rfl, ?_, ?_, ?_⟩ <;> intro h <;> first | exact h | (intro hh; exact hh)

theorem presNode_trans (a b c : CNode) (h1 : PresNode a b) (h2 : PresNode b c) : PresNode a c := by
  obtain ⟨p1, t1, e1, r1, d1⟩ := h1
  obtain ⟨p2, t2, e2, r2, d2⟩ := h2
  exact ⟨p2.trans p1, t2.trans t1, fun x hx => e2 x (e1 x hx),
    fun hx => r2 (r1 hx), fun hx => d2 (d1 hx)⟩

theorem pres_refl (w : World) : Pres w w :=
  ⟨rfl, rfl, fun _ => presNode_refl _⟩

theorem pres_trans (a b c : World) (h1 : Pres a b) (h2 : Pres b c) : Pres a c := by
  obtain ⟨s1, o1, n1⟩ := h1
  obtain ⟨s2, o2, n2⟩ := h2
  exact ⟨s2.trans s1, o2.trans o1, fun j => presNode_trans _ _ _ (n1 j) (n2 j)⟩

theorem pres_updNode (w : World) (i : Nat) (f : CNode → CNode)
    (h : PresNode (w.nodes i) (f (w.nodes i))) : Pres w (updNode w i f) := by
  refine ⟨rfl, rfl, fun j => ?_⟩
  by_cases hj : j = i
  · subst hj; rw [updNode_nodes_self]; exact h
  · rw [updNode_nodes_ne _ _ _ _ hj]; exact presNode_refl _

theorem pres_removeChild (p : Ctx) (c : Nat) (w : World) : Pres w (removeChild p c w) := by
  unfold removeChild
  split
  · exact pres_refl w
  · split
    · exact pres_refl w
    · refine pres_updNode _ _ _ ?_
      exact ⟨rfl, rfl, fun x hx => hx, fun hx => hx, fun hx => hx⟩

theorem pres_foldl (f : World → Nat → World) (h : ∀ acc k, Pres acc (f acc k)) :
    ∀ (l : List Nat) (w : World), Pres w (l.foldl f w) := by
  intro l
  induction l with
  | nil => intro w; exact pres_refl w
  | cons k ks ih =>
    intro w
    exact pres_trans _ _ _ (h w k) (ih (f w k))

theorem pres_cancelLocked (recur : Nat → Bool → GoError → World → World)
    (hrec : ∀ k e acc, Pres acc (recur k false e acc))
    (id : Nat) (e : GoError) (w : World) (h : (w.nodes id).err = none) :
    Pres w (cancelLocked recur id e w) := by
  unfold cancelLocked
  have h1 : Pres w (updNode w id fun m => { m with err := some e, doneClosed := true }) := by
    refine pres_updNode _ _ _ ⟨rfl, rfl, ?_, fun hx => hx, fun _ => rfl⟩
    intro x hx; rw [h] at hx; exact Option.noConfusion hx
  have h2 := pres_foldl (fun acc k => recur k false e acc) (fun acc k => hrec k e acc)
    ((w.nodes id).children.getD [])
    (updNode w id fun m => { m with err := some e, doneClosed := true })
  refine pres_trans _ _ _ (pres_trans _ _ _ h1 h2) ?_
  exact pres_updNode _ _ _ ⟨rfl, rfl, fun x hx => hx, fun hx => hx, fun hx => hx⟩

theorem pres_cancelCtxCancel (recur : Nat → Bool → GoError → World → World)
    (hrec : ∀ k e acc, Pres acc (recur k false e acc))
    (id : Nat) (rm : Bool) (e : GoError) (w : World) :
    Pres w (cancelCtxCancel recur id rm e w) := by
  unfold cancelCtxCancel
  by_cases h : (w.nodes id).err ≠ none
  · rw [if_pos h]; exact pres_refl w
  · rw [if_neg h]
    push_neg at h
    have hl := pres_cancelLocked recur hrec id e w h
    cases rm with
    | false => simpa using hl
    | true => simpa using pres_trans _ _ _ hl (pres_removeChild _ _ _)

theorem pres_timerDetach (rm : Bool) (id : Nat) (w : World) : Pres w (timerDetach rm id w) := by
  unfold timerDetach
  cases rm with
  | false => simpa using pres_refl w
  | true => simpa using pres_removeChild _ _ _

theorem pres_stopTimer (id : Nat) (w : World) : Pres w (stopTimer id w) := by
  unfold stopTimer
  refine pres_updNode _ _ _ ?_
  by_cases ht : (w.nodes id).timer = true
  · rw [if_pos ht]
    exact ⟨rfl, rfl, fun x hx => hx, fun _ => rfl, fun hx => hx⟩
  · rw [if_neg ht]
    exact presNode_refl _

theorem pres_timerCtxCancel (recur : Nat → Bool → GoError → World → World)
    (hrec : ∀ k e acc, Pres acc (recur k false e acc))
    (id : Nat) (rm : Bool) (e : GoError) (w : World) :
    Pres w (timerCtxCancel recur id rm e w) := by
  unfold timerCtxCancel
  exact pres_trans _ _ _
    (pres_trans _ _ _ (pres_cancelCtxCancel recur hrec id false e w) (pres_timerDetach _ _ _))
    (pres_stopTimer _ _)

theorem pres_cancelerCancel (fuel : Nat) :
    ∀ (id : Nat) (rm : Bool) (e : GoError) (w : World),
      Pres w (cancelerCancel fuel id rm e w) := by
  induction fuel with
  | zero => intro id rm e w; exact pres_refl w
  | succ fuel ih =>
    intro id rm e w
    unfold cancelerCancel
    by_cases ht : (w.nodes id).isTimer
    · rw [if_pos ht]
      exact pres_timerCtxCancel _ (fun k e acc => ih k false e acc) id rm e w
    · rw [if_neg ht]
      exact pres_cancelCtxCancel _ (fun k e acc => ih k false e acc) id rm e w

theorem cancelerCancel_size (fuel id : Nat) (rm : Bool) (e : GoError) (w : World) :
    (cancelerCancel fuel id rm e w).size = w.size :=
  (pres_cancelerCancel fuel id rm e w).1

theorem cancelerCancel_obs (fuel id : Nat) (rm : Bool) (e : GoError) (w : World) :
    (cancelerCancel fuel id rm e w).obs = w.obs :=
  (pres_cancelerCancel fuel id rm e w).2.1

theorem cancelerCancel_err_stable (fuel id : Nat) (rm : Bool) (e : GoError) (w : World)
    (j : Nat) (x : GoError) (h : (w.nodes j).err = some x) :
    ((cancelerCancel fuel id rm e w).nodes j).err = some x :=
  ((pres_cancelerCancel fuel id rm e w).2.2 j).2.2.1 x h

theorem cancelerCancel_parent_eq (fuel id : Nat) (rm : Bool) (e : GoError) (w : World)
    (j : Nat) : ((cancelerCancel fuel id rm e w).nodes j).parent = (w.nodes j).parent :=
  ((pres_cancelerCancel fuel id rm e w).2.2 j).1

theorem cancelerCancel_isTimer_eq (fuel id : Nat) (rm : Bool) (e : GoError) (w : World)
    (j : Nat) : ((cancelerCancel fuel id rm e w).nodes j).isTimer = (w.nodes j).isTimer :=
  ((pres_cancelerCancel fuel id rm e w).2.2 j).2.1

theorem cancelLocked_target (recur : Nat → Bool → GoError → World → World)
    (hrec : ∀ k e acc, Pres acc (recur k false e acc))
    (id : Nat) (e : GoError) (w : World) :
    ((cancelLocked recur id e w).nodes id).err = some e ∧
    ((cancelLocked recur id e w).nodes id).doneClosed = true := by
  unfold cancelLocked
  rw [updNode_nodes_self]
  have hW1 : ((updNode w id fun m =>
      { m with err := some e, doneClosed := true }).nodes id).err = some e := by
    rw [updNode_nodes_self]
  have hW1d : ((updNode w id fun m =>
      { m with err := some e, doneClosed := true }).nodes id).doneClosed = true := by
    rw [updNode_nodes_self]
  have hp := pres_foldl (fun acc k => recur k false e acc) (fun acc k => hrec k e acc)
    ((w.nodes id).children.getD [])
    (updNode w id fun m => { m with err := some e, doneClosed := true })
  obtain ⟨-, -, hn⟩ := hp
  exact ⟨(hn id).2.2.1 e hW1, (hn id).2.2.2.2 hW1d⟩

theorem cancelCtxCancel_target (recur : Nat → Bool → GoError → World → World)
    (hrec : ∀ k e acc, Pres acc (recur k false e acc))
    (id : Nat) (rm : Bool) (e : GoError) (w : World) (h : (w.nodes id).err = none) :
    ((cancelCtxCancel recur id rm e w).nodes id).err = some e ∧
    ((cancelCtxCancel recur id rm e w).nodes id).doneClosed = true := by
  unfold cancelCtxCancel
  rw [if_neg (by simp [h])]
  have hl := cancelLocked_target recur hrec id e w
  cases rm with
  | false => simpa using hl
  | true =>
    obtain ⟨-, -, hn⟩ := pres_removeChild ((w.nodes id).parent) id (cancelLocked recur id e w)
    simpa using ⟨(hn id).2.2.1 e hl.1, (hn id).2.2.2.2 hl.2⟩

theorem timerCtxCancel_target (recur : Nat → Bool → GoError → World → World)
    (hrec : ∀ k e acc, Pres acc (recur k false e acc))
    (id : Nat) (rm : Bool) (e : GoError) (w : World) (h : (w.nodes id).err = none) :
    ((timerCtxCancel recur id rm e w).nodes id).err = some e ∧
    ((timerCtxCancel recur id rm e w).nodes id).doneClosed = true := by
  unfold timerCtxCancel
  have hc := cancelCtxCancel_target recur hrec id false e w h
  obtain ⟨-, -, hn1⟩ := pres_timerDetach rm id (cancelCtxCancel recur id false e w)
  have h1 : ((timerDetach rm id (cancelCtxCancel recur id false e w)).nodes id).err = some e :=
    (hn1 id).2.2.1 e hc.1
  have h1d := (hn1 id).2.2.2.2 hc.2
  obtain ⟨-, -, hn2⟩ := pres_stopTimer id (timerDetach rm id (cancelCtxCancel recur id false e w))
  exact ⟨(hn2 id).2.2.1 e h1, (hn2 id).2.2.2.2 h1d⟩

theorem cancelerCancel_target (fuel id : Nat) (rm : Bool) (e : GoError) (w : World)
    (h : (w.nodes id).err = none) :
    ((cancelerCancel (fuel + 1) id rm e w).nodes id).err = some e ∧
    ((cancelerCancel (fuel + 1) id rm e w).nodes id).doneClosed = true := by
  unfold cancelerCancel
  by_cases ht : (w.nodes id).isTimer = true
  · rw [if_pos ht]
    exact timerCtxCancel_target _ (fun k e acc => pres_cancelerCancel fuel k false e acc)
      id rm e w h
  · rw [if_neg ht]
    exact cancelCtxCancel_target _ (fun k e acc => pres_cancelerCancel fuel k false e acc)
      id rm e w h

theorem cancelCtxCancel_noop (recur : Nat → Bool → GoError → World → World)
    (id : Nat) (rm : Bool) (e : GoError) (w : World) (h : (w.nodes id).err ≠ none) :
    cancelCtxCancel recur id rm e w = w := by
  unfold cancelCtxCancel
  rw [if_pos h]

theorem allocNode_nodes_self (w : World) (nd : CNode) : (allocNode w nd).nodes w.size = nd := by
  simp [allocNode]

theorem allocNode_nodes_ne (w : World) (nd : CNode) (j : Nat) (h : j ≠ w.size) :
    (allocNode w nd).nodes j = w.nodes j := by
  simp [allocNode, Function.update_noteq h]

theorem allocNode_size (w : World) (nd : CNode) : (allocNode w nd).size = w.size + 1 := rfl

theorem allocNode_obs (w : World) (nd : CNode) : (allocNode w nd).obs = w.obs := rfl

theorem propagateCancel_background (childId : Nat) (w : World) :
    propagateCancel Ctx.background childId w = w := rfl

theorem propagateCancel_cref_none (w : World) (pid childId : Nat) (pctx : Ctx)
    (h : (w.nodes pid).err = none) :
    propagateCancel (Ctx.cref pid pctx) childId w =
      updNode w pid (fun m => { m with children := some (m.children.getD [] ++ [childId]) }) := by
  unfold propagateCancel
  rw [if_neg (by simp [doneIsNil])]
  show (match (w.nodes pid).err with
    | some e => cancelerCancel (w.size + 1) childId false e w
    | none =>
      updNode w pid fun m => { m with children := some (m.children.getD [] ++ [childId]) }) = _
  rw [h]

theorem propagateCancel_cref_some (w : World) (pid childId : Nat) (pctx : Ctx) (e : GoError)
    (h : (w.nodes pid).err = some e) :
    propagateCancel (Ctx.cref pid pctx) childId w =
      cancelerCancel (w.size + 1) childId false e w := by
  unfold propagateCancel
  rw [if_neg (by simp [doneIsNil])]
  show (match (w.nodes pid).err with
    | some e => cancelerCancel (w.size + 1) childId false e w
    | none =>
      updNode w pid fun m => { m with children := some (m.children.getD [] ++ [childId]) }) = _
  rw [h]

theorem propagateCancel_tref (w : World) (tid childId : Nat) (dl : Int) (pctx : Ctx) :
    propagateCancel (Ctx.tref tid dl pctx) childId w =
      { w with obs := w.obs ++ [(Ctx.tref tid dl pctx, childId)] } := rfl

theorem propagateCancel_vnode (w : World) (childId : Nat) (p : Ctx) (k v : GoVal) :
    propagateCancel (Ctx.vnode p k v) childId w =
      (if doneIsNil p = true then w
       else { w with obs := w.obs ++ [(Ctx.vnode p k v, childId)] }) := by
  unfold propagateCancel
  simp only [doneIsNil]
  by_cases h : doneIsNil p = true
  · rw [if_pos h, if_pos h]
  · rw [if_neg h, if_neg h]; rfl

theorem propagateCancel_frame (parent : Ctx) (childId : Nat) (w : World)
    (h : ∀ pid pc, parent = Ctx.cref pid pc → (w.nodes pid).err = none) (j : Nat) :
    ((propagateCancel parent childId w).nodes j).err = (w.nodes j).err ∧
    ((propagateCancel parent childId w).nodes j).isTimer = (w.nodes j).isTimer ∧
    ((propagateCancel parent childId w).nodes j).timer = (w.nodes j).timer ∧
    (propagateCancel parent childId w).size = w.size := by
  cases parent with
  | background => rw [propagateCancel_background]; exact ⟨rfl, rfl, rfl, rfl⟩
  | cref pid pc =>
    rw [propagateCancel_cref_none w pid childId pc (h pid pc rfl)]
    by_cases hj : j = pid
    · subst hj
      rw [updNode_nodes_self]
      exact ⟨rfl, rfl, rfl, rfl⟩
    · rw [updNode_nodes_ne _ _ _ _ hj]
      exact ⟨rfl, rfl, rfl, rfl⟩
  | tref tid dl pc => rw [propagateCancel_tref]; exact ⟨rfl, rfl, rfl, rfl⟩
  | vnode p k v =>
    rw [propagateCancel_vnode]
    by_cases hd : doneIsNil p = true
    · rw [if_pos hd]; exact ⟨rfl, rfl, rfl, rfl⟩
    · rw [if_neg hd]; exact ⟨rfl, rfl, rfl, rfl⟩

/-- Claim C9: `WithValue(parent, key, val)` aborts with a panic exactly when
the key is the nil interface or is not equality-comparable; for every
comparable non-nil key it returns the new value node without aborting. -/
theorem c9_withValue_panic_conditions (p : Ctx) (k v : GoVal) :
    ((∃ msg, withValue p k v = Except.error msg) ↔
      k.isNil = true ∨ k.isComparable = false) ∧
    (k.isNil = false → k.isComparable = true →
      withValue p k v = Except.ok (Ctx.vnode p k v)) := by
  unfold withValue
  constructor
  · constructor
    · rintro ⟨msg, hmsg⟩
      by_cases h1 : k.isNil = true
      · exact Or.inl h1
      · rw [if_neg h1] at hmsg
        by_cases h2 : k.isComparable = false
        · exact Or.inr h2
        · rw [if_neg h2] at hmsg
          exact Except.noConfusion hmsg
    · intro h
      by_cases h1 : k.isNil = true
      · exact ⟨"nil key", by rw [if_pos h1]⟩
      · rcases h with h | h
        · exact absurd h h1
        · exact ⟨"key is not comparable", by rw [if_neg h1, if_pos h]⟩
  · intro h1 h2
    rw [if_neg (by simp [h1]), if_neg (by simp [h2])]

/-- Witness for C9: a concrete comparable, non-nil key yields the value
node. -/
theorem c9_witness :
    withValue Ctx.background { isNil := false, isComparable := true, tag := 1 }
        { isNil := false, isComparable := true, tag := 2 } =
      Except.ok (Ctx.vnode Ctx.background { isNil := false, isComparable := true, tag := 1 }
        { isNil := false, isComparable := true, tag := 2 }) :=
  (c9_withValue_panic_conditions Ctx.background _ _).2 rfl rfl

/-- Claim C7: `value(k)` on a value node returns its own value when `k`
equals its own key and otherwise the parent's `value(k)`; cancel and timer
nodes delegate the walk unchanged; the exhausted chain (the Background
root) yields the nil value.  The last conjunct replays the spec's chain
test: root, then A=1, then B=2, then a cancelable child; looking up A and B
succeeds and an unset key C yields nil. -/
theorem c7_value_lookup (p : Ctx) (key val k : GoVal) :
    (ctxValue (Ctx.vnode p key val) k = if key = k then val else ctxValue p k) ∧
    (∀ id, ctxValue (Ctx.cref id p) k = ctxValue p k) ∧
    (∀ id d, ctxValue (Ctx.tref id d p) k = ctxValue p k) ∧
    ctxValue Ctx.background k = nilVal ∧
    (ctxValue (Ctx.cref 2 (Ctx.vnode (Ctx.vnode Ctx.background ⟨false, true, 1⟩
        ⟨false, true, 11⟩) ⟨false, true, 2⟩ ⟨false, true, 12⟩)) ⟨false, true, 1⟩ =
        ⟨false, true, 11⟩ ∧
      ctxValue (Ctx.cref 2 (Ctx.vnode (Ctx.vnode Ctx.background ⟨false, true, 1⟩
        ⟨false, true, 11⟩) ⟨false, true, 2⟩ ⟨false, true, 12⟩)) ⟨false, true, 2⟩ =
        ⟨false, true, 12⟩ ∧
      ctxValue (Ctx.cref 2 (Ctx.vnode (Ctx.vnode Ctx.background ⟨false, true, 1⟩
        ⟨false, true, 11⟩) ⟨false, true, 2⟩ ⟨false, true, 12⟩)) ⟨false, true, 3⟩ = nilVal) :=
  ⟨rfl, fun _ => rfl, fun _ _ => rfl, rfl, by decide⟩

/-- Claim C10: when `WithDeadline` degrades because the parent's deadline is
already tighter, the returned context's `Deadline()` reports the parent's
deadline, never the later requested one. -/
theorem c10_degraded_deadline_is_parents (w : World) (p : Ctx) (dl now cur : Int)
    (hcur : ctxDeadline p = some cur) (hlt : cur < dl) :
    ctxDeadline (withDeadline p dl now w).2 = some cur ∧
    ctxDeadline (withDeadline p dl now w).2 ≠ some dl := by
  have hd : withDeadline p dl now w = withCancel p w := by
    unfold withDeadline
    rw [hcur]
    show (if cur < dl then withCancel p w else withDeadlineTimer p dl now w) = withCancel p w
    rw [if_pos hlt]
  rw [hd]
  have hc : ctxDeadline (withCancel p w).2 = ctxDeadline p := rfl
  rw [hc, hcur]
  refine ⟨rfl, fun hcontra => ?_⟩
  have : cur = dl := by injection hcontra
  omega

/-- Witness for C10: parent deadline 5, requested 7; the degraded node
reports 5. -/
theorem c10_witness :
    ctxDeadline (withDeadline (Ctx.tref 0 5 Ctx.background) 7 0 emptyWorld).2 = some 5 ∧
    ctxDeadline (withDeadline (Ctx.tref 0 5 Ctx.background) 7 0 emptyWorld).2 ≠ some 7 :=
  c10_degraded_deadline_is_parents emptyWorld (Ctx.tref 0 5 Ctx.background) 7 0 5 rfl
    (by decide)

/-- Claim C4 (amended): the degradation to a plain `WithCancel` happens when
the parent's existing deadline is STRICTLY earlier than the requested one
(`cur.Before(deadline)`); at equality a timer node is constructed and
armed. -/
theorem c4_strictly_earlier_degrades (w : World) (p : Ctx) (dl now cur : Int)
    (hcur : ctxDeadline p = some cur) (hlt : cur < dl) :
    withDeadline p dl now w = withCancel p w := by
  unfold withDeadline
  rw [hcur]
  show (if cur < dl then withCancel p w else withDeadlineTimer p dl now w) = withCancel p w
  rw [if_pos hlt]

/-- Witness for C4 (amended): parent deadline 5, requested 7 — plain
`WithCancel` derivation. -/
theorem c4_witness :
    withDeadline (Ctx.tref 0 5 Ctx.background) 7 0 emptyWorld =
      withCancel (Ctx.tref 0 5 Ctx.background) emptyWorld :=
  c4_strictly_earlier_degrades emptyWorld (Ctx.tref 0 5 Ctx.background) 7 0 5 rfl (by decide)

/-- Counterexample to claim C4 as stated: with the parent's deadline (5)
EQUAL to the requested deadline (5) — so "earlier than or equal" — the code
does NOT degrade: it constructs a timer node and arms its timer. -/
theorem c4_counterexample :
    ctxDeadline (withDeadline Ctx.background 5 0 emptyWorld).2 = some 5 ∧
    (((withDeadline (withDeadline Ctx.background 5 0 emptyWorld).2 5 0
        (withDeadline Ctx.background 5 0 emptyWorld).1).1).nodes 1).isTimer = true ∧
    (((withDeadline (withDeadline Ctx.background 5 0 emptyWorld).2 5 0
        (withDeadline Ctx.background 5 0 emptyWorld).1).1).nodes 1).timer = true := by
  decide

/-- Claim C5 (amended): the registry path of `propagateCancel` is taken
exactly when the parent's dynamic type is the plain `*cancelCtx`: under its
lock, an already-cancelled parent cancels the child immediately with the
parent's recorded error, and otherwise the child is added to the parent's
child set — in both cases no fallback observer is spawned.  A TIMER-node
parent, although it is-a cancelable node, is NOT recognized by
`parentCancelCtx` and goes through the fallback observer path instead. -/
theorem c5_registry_path (w : World) (pid childId : Nat) (pctx : Ctx) :
    ((w.nodes pid).err = none →
      propagateCancel (Ctx.cref pid pctx) childId w =
        updNode w pid (fun m => { m with children := some (m.children.getD [] ++ [childId]) })) ∧
    (∀ e, (w.nodes pid).err = some e → (w.nodes childId).err = none →
      ((propagateCancel (Ctx.cref pid pctx) childId w).nodes childId).err = some e ∧
      ((propagateCancel (Ctx.cref pid pctx) childId w).nodes childId).doneClosed = true ∧
      (propagateCancel (Ctx.cref pid pctx) childId w).obs = w.obs) ∧
    (∀ tid dl, propagateCancel (Ctx.tref tid dl pctx) childId w =
      { w with obs := w.obs ++ [(Ctx.tref tid dl pctx, childId)] }) := by
  refine ⟨?_, ?_, ?_⟩
  · intro h
    exact propagateCancel_cref_none w pid childId pctx h
  · intro e hp hc
    rw [propagateCancel_cref_some w pid childId pctx e hp]
    have ht := cancelerCancel_target w.size childId false e w hc
    exact ⟨ht.1, ht.2, cancelerCancel_obs _ _ _ _ _⟩
  · intro tid dl
    exact propagateCancel_tref w tid childId dl pctx

/-- Witness for C5 (amended): the registered branch at a fresh parent, and
the immediate-cancellation branch at an already-cancelled parent. -/
theorem c5_witness :
    (propagateCancel (Ctx.cref 0 Ctx.background) 1 (withCancel Ctx.background emptyWorld).1 =
      updNode (withCancel Ctx.background emptyWorld).1 0
        (fun m => { m with children := some (m.children.getD [] ++ [1]) })) ∧
    ((propagateCancel (Ctx.cref 0 Ctx.background) 1
        (cancelCall (Ctx.cref 0 Ctx.background) GoError.canceled
          (withCancel Ctx.background emptyWorld).1)).nodes 1).err = some GoError.canceled :=
  ⟨(c5_registry_path (withCancel Ctx.background emptyWorld).1 0 1 Ctx.background).1 (by decide),
    ((c5_registry_path
        (cancelCall (Ctx.cref 0 Ctx.background) GoError.canceled
          (withCancel Ctx.background emptyWorld).1) 0 1 Ctx.background).2.1
      GoError.canceled (by decide) (by decide)).1⟩

/-- Counterexample to claim C5 as stated: node 0 is a timer node
(`WithDeadline` under Background); deriving a `WithCancel` child under it
spawns a fallback observer goroutine and registers nothing in the parent's
child set — the registry path is NOT taken for a timer-node parent. -/
theorem c5_counterexample :
    (((withDeadline Ctx.background 5 0 emptyWorld).1).nodes 0).isTimer = true ∧
    ((withCancel (withDeadline Ctx.background 5 0 emptyWorld).2
        (withDeadline Ctx.background 5 0 emptyWorld).1).1).obs.length = 1 ∧
    (((withCancel (withDeadline Ctx.background 5 0 emptyWorld).2
        (withDeadline Ctx.background 5 0 emptyWorld).1).1).nodes 0).children = none := by
  decide

/-- Claim C6 (amended): provided the parent does not have a strictly earlier
deadline (no degradation) and is not an already-cancelled `*cancelCtx`
(which would cancel the fresh node with the parent's error during linkage),
`WithDeadline` with an already-elapsed deadline cancels the new timer node
immediately and synchronously with `DeadlineExceeded` before returning, and
never arms a timer. -/
theorem c6_elapsed_deadline_cancels (w : World) (p : Ctx) (dl now : Int)
    (hnd : ∀ cur, ctxDeadline p = some cur → ¬ cur < dl)
    (hpc : ∀ pid pc, p = Ctx.cref pid pc → (w.nodes pid).err = none)
    (hel : dl - now ≤ 0) :
    (withDeadline p dl now w).2 = Ctx.tref w.size dl p ∧
    (((withDeadline p dl now w).1).nodes w.size).err = some GoError.deadlineExceeded ∧
    (((withDeadline p dl now w).1).nodes w.size).doneClosed = true ∧
    (((withDeadline p dl now w).1).nodes w.size).timer = false := by
  have hred : withDeadline p dl now w = withDeadlineTimer p dl now w := by
    unfold withDeadline
    cases hd : ctxDeadline p with
    | none => rfl
    | some cur =>
      show (if cur < dl then withCancel p w else withDeadlineTimer p dl now w) = _
      rw [if_neg (hnd cur hd)]
  rw [hred]
  unfold withDeadlineTimer
  refine ⟨rfl, ?_⟩
  have hpc1 : ∀ pid pc, p = Ctx.cref pid pc →
      ((allocNode w (newTimerNode p)).nodes pid).err = none := by
    intro pid pc hp
    by_cases hpid : pid = w.size
    · subst hpid
      rw [allocNode_nodes_self]
      rfl
    · rw [allocNode_nodes_ne _ _ _ hpid]
      exact hpc pid pc hp
  have hframe := propagateCancel_frame p w.size (allocNode w (newTimerNode p)) hpc1 w.size
  have herr2 : ((propagateCancel p w.size (allocNode w (newTimerNode p))).nodes w.size).err
      = none := by
    rw [hframe.1, allocNode_nodes_self]
    rfl
  have htimer2 : ((propagateCancel p w.size (allocNode w (newTimerNode p))).nodes w.size).timer
      = false := by
    rw [hframe.2.2.1, allocNode_nodes_self]
    rfl
  have hsize2 : (propagateCancel p w.size (allocNode w (newTimerNode p))).size = w.size + 1 := by
    rw [hframe.2.2.2]
    rfl
  unfold withDeadlineFinish
  rw [if_pos hel, hsize2]
  have ht := cancelerCancel_target (w.size + 1) w.size true GoError.deadlineExceeded
    (propagateCancel p w.size (allocNode w (newTimerNode p))) herr2
  refine ⟨ht.1, ht.2, ?_⟩
  exact ((pres_cancelerCancel (w.size + 1 + 1) w.size true GoError.deadlineExceeded
    (propagateCancel p w.size (allocNode w (newTimerNode p)))).2.2 w.size).2.2.2.1 htimer2

/-- Witness for C6 (amended): Background parent, deadline 5 at time 10. -/
theorem c6_witness :
    (withDeadline Ctx.background 5 10 emptyWorld).2 = Ctx.tref 0 5 Ctx.background ∧
    (((withDeadline Ctx.background 5 10 emptyWorld).1).nodes 0).err =
      some GoError.deadlineExceeded ∧
    (((withDeadline Ctx.background 5 10 emptyWorld).1).nodes 0).doneClosed = true ∧
    (((withDeadline Ctx.background 5 10 emptyWorld).1).nodes 0).timer = false :=
  c6_elapsed_deadline_cancels emptyWorld Ctx.background 5 10
    (fun cur h => Option.noConfusion h) (fun pid pc h => Ctx.noConfusion h) (by decide)

/-- Counterexample to claim C6 as stated: when the parent is ALREADY
cancelled, `propagateCancel` cancels the fresh node with the parent's
recorded error (`context canceled`) during linkage, and the subsequent
`c.cancel(true, DeadlineExceeded)` for the elapsed deadline is an idempotent
no-op — the returned node does not record "deadline exceeded". -/
theorem c6_counterexample :
    (((withDeadline (withCancel Ctx.background emptyWorld).2 5 10
        (cancelCall (withCancel Ctx.background emptyWorld).2 GoError.canceled
          (withCancel Ctx.background emptyWorld).1)).1).nodes 1).err = some GoError.canceled ∧
    (((withDeadline (withCancel Ctx.background emptyWorld).2 5 10
        (cancelCall (withCancel Ctx.background emptyWorld).2 GoError.canceled
          (withCancel Ctx.background emptyWorld).1)).1).nodes 1).err ≠
      some GoError.deadlineExceeded := by
  decide

theorem cancelerCancel_err_ne_none (fuel id : Nat) (rm : Bool) (e : GoError) (w : World) :
    ((cancelerCancel (fuel + 1) id rm e w).nodes id).err ≠ none := by
  cases h : (w.nodes id).err with
  | none =>
    rw [(cancelerCancel_target fuel id rm e w h).1]
    simp
  | some x =>
    rw [cancelerCancel_err_stable (fuel + 1) id rm e w id x h]
    simp

theorem updNode_id (w : World) (i : Nat) (f : CNode → CNode) (h : f (w.nodes i) = w.nodes i) :
    updNode w i f = w := by
  unfold updNode
  rw [h, Function.update_eq_self]

theorem cnode_set_children_self (m : CNode) (c : Option (List Nat)) (h : m.children = c) :
    { m with children := c } = m := by
  cases m
  cases h
  rfl

theorem stopTimer_timer_false (id : Nat) (w : World) :
    ((stopTimer id w).nodes id).timer = false := by
  unfold stopTimer
  rw [updNode_nodes_self]
  by_cases ht : (w.nodes id).timer = true
  · rw [if_pos ht]
  · rw [if_neg ht]
    simp only [Bool.not_eq_true] at ht
    exact ht

theorem stopTimer_nodes_children (id : Nat) (w : World) (j : Nat) :
    ((stopTimer id w).nodes j).children = (w.nodes j).children := by
  unfold stopTimer
  by_cases hj : j = id
  · subst hj
    rw [updNode_nodes_self]
    by_cases ht : (w.nodes j).timer = true
    · rw [if_pos ht]
    · rw [if_neg ht]
  · rw [updNode_nodes_ne _ _ _ _ hj]

theorem stopTimer_noop (id : Nat) (w : World) (h : (w.nodes id).timer = false) :
    stopTimer id w = w := by
  unfold stopTimer
  apply updNode_id
  rw [if_neg (by simp [h])]

theorem removeChild_nodes_parent (p : Ctx) (cid : Nat) (w : World) (j : Nat) :
    ((removeChild p cid w).nodes j).parent = (w.nodes j).parent :=
  ((pres_removeChild p cid w).2.2 j).1

theorem stopTimer_nodes_parent (id : Nat) (w : World) (j : Nat) :
    ((stopTimer id w).nodes j).parent = (w.nodes j).parent :=
  ((pres_stopTimer id w).2.2 j).1

theorem removeChild_pcc_none (p : Ctx) (cid : Nat) (w : World)
    (h : parentCancelCtx p = none) : removeChild p cid w = w := by
  unfold removeChild
  rw [h]

theorem removeChild_children_none (p : Ctx) (pid cid : Nat) (w : World)
    (h : parentCancelCtx p = some pid) (hch : (w.nodes pid).children = none) :
    removeChild p cid w = w := by
  unfold removeChild
  rw [h]
  show (match (w.nodes pid).children with
    | none => w
    | some kids =>
      updNode w pid fun m =>
        { m with children := some (kids.filter (fun k => k != cid)) }) = w
  rw [hch]

theorem removeChild_children_some (p : Ctx) (pid cid : Nat) (w : World) (kids : List Nat)
    (h : parentCancelCtx p = some pid) (hch : (w.nodes pid).children = some kids) :
    removeChild p cid w =
      updNode w pid (fun m =>
        { m with children := some (kids.filter (fun k => k != cid)) }) := by
  unfold removeChild
  rw [h]
  show (match (w.nodes pid).children with
    | none => w
    | some kids =>
      updNode w pid fun m =>
        { m with children := some (kids.filter (fun k => k != cid)) }) = _
  rw [hch]

theorem removeChild_second_noop (p1 : Ctx) (id : Nat) (wA : World) :
    removeChild p1 id (stopTimer id (removeChild p1 id wA)) =
      stopTimer id (removeChild p1 id wA) := by
  cases hpc : parentCancelCtx p1 with
  | none => exact removeChild_pcc_none p1 id _ hpc
  | some pid =>
    cases hach : (wA.nodes pid).children with
    | none =>
      have hB : removeChild p1 id wA = wA := removeChild_children_none p1 pid id wA hpc hach
      rw [hB]
      have hch : ((stopTimer id wA).nodes pid).children = none := by
        rw [stopTimer_nodes_children, hach]
      exact removeChild_children_none p1 pid id _ hpc hch
    | some kids =>
      have hB := removeChild_children_some p1 pid id wA kids hpc hach
      have hBc : ((removeChild p1 id wA).nodes pid).children =
          some (kids.filter (fun k => k != id)) := by
        rw [hB, updNode_nodes_self]
      have hch : ((stopTimer id (removeChild p1 id wA)).nodes pid).children =
          some (kids.filter (fun k => k != id)) := by
        rw [stopTimer_nodes_children, hBc]
      rw [removeChild_children_some p1 pid id _ (kids.filter (fun k => k != id)) hpc hch]
      apply updNode_id
      apply cnode_set_children_self
      rw [hch]
      congr 1
      symm
      refine List.filter_eq_self.mpr ?_
      intro a ha
      exact (List.mem_filter.mp ha).2

theorem cancelerCancel_timer_unfold (fuel id : Nat) (rm : Bool) (e : GoError) (w : World)
    (h : (w.nodes id).isTimer = true) :
    cancelerCancel (fuel + 1) id rm e w =
      stopTimer id (timerDetach rm id (cancelCtxCancel (cancelerCancel fuel) id false e w)) := by
  unfold cancelerCancel
  rw [if_pos h]
  rfl

theorem cancelerCancel_nonTimer_unfold (fuel id : Nat) (rm : Bool) (e : GoError) (w : World)
    (h : (w.nodes id).isTimer = false) :
    cancelerCancel (fuel + 1) id rm e w = cancelCtxCancel (cancelerCancel fuel) id rm e w := by
  unfold cancelerCancel
  rw [if_neg (by simp [h])]

theorem timer_second_noop (id : Nat) (rm2 : Bool) (wA : World) :
    stopTimer id (timerDetach rm2 id (stopTimer id (timerDetach true id wA))) =
      stopTimer id (timerDetach true id wA) := by
  have h1 : timerDetach true id wA = removeChild ((wA.nodes id).parent) id wA := rfl
  cases rm2 with
  | false =>
    show stopTimer id (stopTimer id (timerDetach true id wA)) = stopTimer id (timerDetach true id wA)
    exact stopTimer_noop id _ (stopTimer_timer_false id _)
  | true =>
    rw [h1]
    have hpar : ((stopTimer id (removeChild ((wA.nodes id).parent) id wA)).nodes id).parent =
        (wA.nodes id).parent := by
      rw [stopTimer_nodes_parent, removeChild_nodes_parent]
    have h2 : timerDetach true id (stopTimer id (removeChild ((wA.nodes id).parent) id wA)) =
        removeChild ((stopTimer id (removeChild ((wA.nodes id).parent) id wA)).nodes id).parent id
          (stopTimer id (removeChild ((wA.nodes id).parent) id wA)) := rfl
    rw [h2, hpar, removeChild_second_noop]
    exact stopTimer_noop id _ (stopTimer_timer_false id _)

theorem cancel_second_noop (fuel1 fuel2 id : Nat) (rm2 : Bool) (e1 e2 : GoError) (w : World) :
    cancelerCancel (fuel2 + 1) id rm2 e2 (cancelerCancel (fuel1 + 1) id true e1 w) =
      cancelerCancel (fuel1 + 1) id true e1 w := by
  have herr := cancelerCancel_err_ne_none fuel1 id true e1 w
  by_cases h0 : (w.nodes id).isTimer = true
  · have hit : ((cancelerCancel (fuel1 + 1) id true e1 w).nodes id).isTimer = true := by
      rw [cancelerCancel_isTimer_eq]
      exact h0
    rw [cancelerCancel_timer_unfold fuel2 id rm2 e2 _ hit,
      cancelCtxCancel_noop _ id false e2 _ herr,
      cancelerCancel_timer_unfold fuel1 id true e1 w h0]
    exact timer_second_noop id rm2 (cancelCtxCancel (cancelerCancel fuel1) id false e1 w)
  · have h0f : (w.nodes id).isTimer = false := by
      simpa [Bool.not_eq_true] using h0
    have hit : ((cancelerCancel (fuel1 + 1) id true e1 w).nodes id).isTimer = false := by
      rw [cancelerCancel_isTimer_eq]
      exact h0f
    rw [cancelerCancel_nonTimer_unfold fuel2 id rm2 e2 _ hit]
    exact cancelCtxCancel_noop _ id rm2 e2 _ herr

/-- Claim C3: invoking a node's cancel function a second (or further) time —
with any error, as the internal cancel operation allows — is an observable
no-op: the whole world (recorded error, done signal, child sets) after the
second invocation is identical to the world after the first. -/
theorem c3_cancel_idempotent (w : World) (c : Ctx) (e1 e2 : GoError) :
    cancelCall c e2 (cancelCall c e1 w) = cancelCall c e1 w := by
  cases c with
  | background => rfl
  | vnode p k v => rfl
  | cref id p =>
    show cancelerCancel ((cancelerCancel (w.size + 1) id true e1 w).size + 1) id true e2
        (cancelerCancel (w.size + 1) id true e1 w) = cancelerCancel (w.size + 1) id true e1 w
    rw [cancelerCancel_size]
    exact cancel_second_noop w.size w.size id true e1 e2 w
  | tref id d p =>
    show cancelerCancel ((cancelerCancel (w.size + 1) id true e1 w).size + 1) id true e2
        (cancelerCancel (w.size + 1) id true e1 w) = cancelerCancel (w.size + 1) id true e1 w
    rw [cancelerCancel_size]
    exact cancel_second_noop w.size w.size id true e1 e2 w

theorem cancelCtxCancel_rm_unfold (recur : Nat → Bool → GoError → World → World)
    (id : Nat) (e : GoError) (w : World) (h : (w.nodes id).err = none) :
    cancelCtxCancel recur id true e w =
      removeChild ((w.nodes id).parent) id (cancelLocked recur id e w) := by
  unfold cancelCtxCancel
  rw [if_neg (by simp [h]), if_pos rfl]

theorem removeChild_not_mem (pid cid : Nat) (pctx : Ctx) (w : World) :
    cid ∉ (((removeChild (Ctx.cref pid pctx) cid w).nodes pid).children).getD [] := by
  cases hch : (w.nodes pid).children with
  | none =>
    rw [removeChild_children_none (Ctx.cref pid pctx) pid cid w rfl hch, hch]
    simp
  | some kids =>
    rw [removeChild_children_some (Ctx.cref pid pctx) pid cid w kids rfl hch, updNode_nodes_self]
    simp [List.mem_filter]

theorem cancel_detaches (w : World) (pid childId : Nat) (pctx : Ctx) (e1 : GoError)
    (hpar : (w.nodes childId).parent = Ctx.cref pid pctx)
    (herr : (w.nodes childId).err = none) :
    childId ∉ (((cancelerCancel (w.size + 1) childId true e1 w).nodes pid).children).getD [] := by
  by_cases hT : (w.nodes childId).isTimer = true
  · rw [cancelerCancel_timer_unfold w.size childId true e1 w hT]
    have hparA : ((cancelCtxCancel (cancelerCancel w.size) childId false e1 w).nodes
        childId).parent = Ctx.cref pid pctx := by
      rw [((pres_cancelCtxCancel _ (fun k e acc => pres_cancelerCancel w.size k false e acc)
        childId false e1 w).2.2 childId).1, hpar]
    have htd : timerDetach true childId (cancelCtxCancel (cancelerCancel w.size) childId false e1 w)
        = removeChild (Ctx.cref pid pctx) childId
            (cancelCtxCancel (cancelerCancel w.size) childId false e1 w) := by
      show removeChild ((cancelCtxCancel (cancelerCancel w.size) childId false e1 w).nodes
        childId).parent childId (cancelCtxCancel (cancelerCancel w.size) childId false e1 w) = _
      rw [hparA]
    rw [htd, stopTimer_nodes_children]
    exact removeChild_not_mem pid childId pctx _
  · have hTf : (w.nodes childId).isTimer = false := by
      simpa [Bool.not_eq_true] using hT
    rw [cancelerCancel_nonTimer_unfold w.size childId true e1 w hTf,
      cancelCtxCancel_rm_unfold _ childId e1 w herr, hpar]
    exact removeChild_not_mem pid childId pctx _

/-- Claim C8: after a registry-linked child is cancelled with detachment
requested (`cancel(true, e1)`), the parent's child registry no longer
references it, and a subsequent cancellation of the parent leaves the
child's recorded error `e1` unchanged — it is never overwritten by the
parent's error `e2`. -/
theorem c8_detach_on_cancel (w : World) (pid childId : Nat) (pctx : Ctx) (e1 e2 : GoError)
    (hpar : (w.nodes childId).parent = Ctx.cref pid pctx)
    (herr : (w.nodes childId).err = none)
    (_hmem : childId ∈ ((w.nodes pid).children).getD []) :
    childId ∉ (((cancelerCancel (w.size + 1) childId true e1 w).nodes pid).children).getD [] ∧
    ((cancelerCancel (w.size + 1) childId true e1 w).nodes childId).err = some e1 ∧
    ((cancelCall (Ctx.cref pid pctx) e2
        (cancelerCancel (w.size + 1) childId true e1 w)).nodes childId).err = some e1 := by
  refine ⟨cancel_detaches w pid childId pctx e1 hpar herr,
    (cancelerCancel_target w.size childId true e1 w herr).1, ?_⟩
  exact cancelerCancel_err_stable _ pid true e2 _ childId e1
    (cancelerCancel_target w.size childId true e1 w herr).1

/-- Witness for C8: parent node 0 with registered child node 1; the child is
cancelled with detachment, then the parent is cancelled with a different
error. -/
theorem c8_witness :
    1 ∉ (((cancelerCancel ((buildChain 1).1.size + 1) 1 true GoError.canceled
        (buildChain 1).1).nodes 0).children).getD [] ∧
    ((cancelerCancel ((buildChain 1).1.size + 1) 1 true GoError.canceled
        (buildChain 1).1).nodes 1).err = some GoError.canceled ∧
    ((cancelCall (Ctx.cref 0 Ctx.background) GoError.deadlineExceeded
        (cancelerCancel ((buildChain 1).1.size + 1) 1 true GoError.canceled
          (buildChain 1).1)).nodes 1).err = some GoError.canceled :=
  c8_detach_on_cancel (buildChain 1).1 0 1 Ctx.background GoError.canceled
    GoError.deadlineExceeded (by decide) (by decide) (by decide)

theorem inv_nodeUpd (w : World) (i : Nat) (f : CNode → CNode)
    (h : ∀ m, m.doneClosed = m.err.isSome → (f m).doneClosed = (f m).err.isSome)
    (hw : Inv w) : Inv (updNode w i f) := by
  intro j
  by_cases hj : j = i
  · subst hj
    rw [updNode_nodes_self]
    exact h _ (hw j)
  · rw [updNode_nodes_ne _ _ _ _ hj]
    exact hw j

theorem inv_removeChild (p : Ctx) (cid : Nat) (w : World) (hw : Inv w) :
    Inv (removeChild p cid w) := by
  unfold removeChild
  split
  · exact hw
  · split
    · exact hw
    · exact inv_nodeUpd _ _ _ (fun m hm => hm) hw

theorem inv_foldl (f : World → Nat → World) (h : ∀ acc k, Inv acc → Inv (f acc k)) :
    ∀ (l : List Nat) (w : World), Inv w → Inv (l.foldl f w) := by
  intro l
  induction l with
  | nil => intro w hw; exact hw
  | cons k ks ih => intro w hw; exact ih _ (h w k hw)

theorem inv_cancelLocked (recur : Nat → Bool → GoError → World → World)
    (hrec : ∀ k e acc, Inv acc → Inv (recur k false e acc))
    (id : Nat) (e : GoError) (w : World) (hw : Inv w) : Inv (cancelLocked recur id e w) := by
  unfold cancelLocked
  refine inv_nodeUpd _ _ _ (fun m hm => hm) ?_
  refine inv_foldl _ (fun acc k ha => hrec k e acc ha) _ _ ?_
  exact inv_nodeUpd _ _ _ (fun m _ => rfl) hw

theorem inv_cancelCtxCancel (recur : Nat → Bool → GoError → World → World)
    (hrec : ∀ k e acc, Inv acc → Inv (recur k false e acc))
    (id : Nat) (rm : Bool) (e : GoError) (w : World) (hw : Inv w) :
    Inv (cancelCtxCancel recur id rm e w) := by
  unfold cancelCtxCancel
  split
  · exact hw
  · split
    · exact inv_removeChild _ _ _ (inv_cancelLocked recur hrec id e w hw)
    · exact inv_cancelLocked recur hrec id e w hw

theorem inv_stopTimer (id : Nat) (w : World) (hw : Inv w) : Inv (stopTimer id w) := by
  unfold stopTimer
  refine inv_nodeUpd _ _ _ ?_ hw
  intro m hm
  by_cases ht : m.timer = true
  · rw [if_pos ht]
    exact hm
  · rw [if_neg ht]
    exact hm

theorem inv_timerDetach (rm : Bool) (id : Nat) (w : World) (hw : Inv w) :
    Inv (timerDetach rm id w) := by
  unfold timerDetach
  split
  · exact inv_removeChild _ _ _ hw
  · exact hw

theorem inv_timerCtxCancel (recur : Nat → Bool → GoError → World → World)
    (hrec : ∀ k e acc, Inv acc → Inv (recur k false e acc))
    (id : Nat) (rm : Bool) (e : GoError) (w : World) (hw : Inv w) :
    Inv (timerCtxCancel recur id rm e w) :=
  inv_stopTimer _ _ (inv_timerDetach _ _ _ (inv_cancelCtxCancel recur hrec id false e w hw))

theorem inv_cancelerCancel (fuel : Nat) :
    ∀ (id : Nat) (rm : Bool) (e : GoError) (w : World), Inv w →
      Inv (cancelerCancel fuel id rm e w) := by
  induction fuel with
  | zero => intro id rm e w hw; exact hw
  | succ fuel ih =>
    intro id rm e w hw
    unfold cancelerCancel
    split
    · exact inv_timerCtxCancel _ (fun k e acc => ih k false e acc) id rm e w hw
    · exact inv_cancelCtxCancel _ (fun k e acc => ih k false e acc) id rm e w hw

theorem inv_propagateCancel (parent : Ctx) (childId : Nat) (w : World) (hw : Inv w) :
    Inv (propagateCancel parent childId w) := by
  unfold propagateCancel
  split
  · exact hw
  · split
    · split
      · exact inv_cancelerCancel _ _ _ _ _ hw
      · exact inv_nodeUpd _ _ _ (fun m hm => hm) hw
    · intro j
      exact hw j

theorem inv_allocNode (w : World) (nd : CNode) (hnd : nd.doneClosed = nd.err.isSome)
    (hw : Inv w) : Inv (allocNode w nd) := by
  intro j
  by_cases hj : j = w.size
  · subst hj
    rw [allocNode_nodes_self]
    exact hnd
  · rw [allocNode_nodes_ne _ _ _ hj]
    exact hw j

theorem inv_withCancel (p : Ctx) (w : World) (hw : Inv w) : Inv (withCancel p w).1 := by
  show Inv (propagateCancel p w.size (allocNode w (newCancelCtx p)))
  exact inv_propagateCancel _ _ _ (inv_allocNode _ _ rfl hw)

theorem inv_armTimer (id : Nat) (w : World) (hw : Inv w) : Inv (armTimer id w) := by
  unfold armTimer
  split
  · exact inv_nodeUpd _ _ _ (fun m hm => hm) hw
  · exact hw

theorem inv_withDeadlineFinish (dl now : Int) (id : Nat) (w : World) (hw : Inv w) :
    Inv (withDeadlineFinish dl now id w) := by
  unfold withDeadlineFinish
  split
  · exact inv_cancelerCancel _ _ _ _ _ hw
  · exact inv_armTimer _ _ hw

theorem inv_withDeadlineTimer (p : Ctx) (dl now : Int) (w : World) (hw : Inv w) :
    Inv (withDeadlineTimer p dl now w).1 := by
  show Inv (withDeadlineFinish dl now w.size
    (propagateCancel p w.size (allocNode w (newTimerNode p))))
  exact inv_withDeadlineFinish _ _ _ _ (inv_propagateCancel _ _ _ (inv_allocNode _ _ rfl hw))

theorem inv_withDeadline (p : Ctx) (dl now : Int) (w : World) (hw : Inv w) :
    Inv (withDeadline p dl now w).1 := by
  unfold withDeadline
  split
  · split
    · exact inv_withCancel _ _ hw
    · exact inv_withDeadlineTimer _ _ _ _ hw
  · exact inv_withDeadlineTimer _ _ _ _ hw

theorem inv_cancelCall (c : Ctx) (e : GoError) (w : World) (hw : Inv w) :
    Inv (cancelCall c e w) := by
  cases c with
  | background => exact hw
  | vnode p k v => exact hw
  | cref id p => exact inv_cancelerCancel _ _ _ _ _ hw
  | tref id d p => exact inv_cancelerCancel _ _ _ _ _ hw

theorem reachable_inv (w : World) (hw : Reachable w) : Inv w := by
  induction hw with
  | init => intro j; rfl
  | withCancelStep p w2 _ ih => exact inv_withCancel p w2 ih
  | withDeadlineStep p d now w2 _ ih => exact inv_withDeadline p d now w2 ih
  | cancelStep c2 e w2 _ ih => exact inv_cancelCall c2 e w2 ih
  | timerFire id w2 _ ih =>
    exact inv_cancelerCancel (w2.size + 1) id true GoError.deadlineExceeded w2 ih

/-- Claim C2: in every reachable world and for every context, the error
query returns non-nil exactly when the one-shot done signal has fired:
before cancellation both are unset, after cancellation both are set, and no
state has one without the other. -/
theorem c2_err_iff_signal (w : World) (hw : Reachable w) (c : Ctx) :
    ctxErr w c ≠ none ↔ ctxDoneClosed w c = true := by
  have hinv : Inv w := reachable_inv w hw
  induction c with
  | background => simp [ctxErr, ctxDoneClosed]
  | cref id p _ =>
    show (w.nodes id).err ≠ none ↔ (w.nodes id).doneClosed = true
    rw [Option.ne_none_iff_isSome, hinv id]
  | tref id d p _ =>
    show (w.nodes id).err ≠ none ↔ (w.nodes id).doneClosed = true
    rw [Option.ne_none_iff_isSome, hinv id]
  | vnode p k v ih => exact ih

/-- Witness for C2: the reachable world after `WithCancel(Background)`
followed by the returned cancel function, observed at the derived node. -/
theorem c2_witness :
    ctxErr (cancelCall (withCancel Ctx.background emptyWorld).2 GoError.canceled
        (withCancel Ctx.background emptyWorld).1) (withCancel Ctx.background emptyWorld).2 ≠
      none ↔
    ctxDoneClosed (cancelCall (withCancel Ctx.background emptyWorld).2 GoError.canceled
        (withCancel Ctx.background emptyWorld).1) (withCancel Ctx.background emptyWorld).2 =
      true :=
  c2_err_iff_signal _
    (Reachable.cancelStep _ _ _ (Reachable.withCancelStep _ _ Reachable.init)) _

theorem chainCtx_eq (n : Nat) : chainCtx n = Ctx.cref n (chainParent n) := by
  cases n with
  | zero => rfl
  | succ m => rfl

theorem chainNodeAt_le (n j : Nat) (h : j ≤ n) :
    chainNodeAt n j =
      { parent := chainParent j, err := none, doneClosed := false,
        children := if j < n then some [j + 1] else none, isTimer := false,
        timer := false } := by
  unfold chainNodeAt
  rw [if_pos h]

theorem chainNodeAt_gt (n j : Nat) (h : ¬ j ≤ n) :
    chainNodeAt n j = newCancelCtx Ctx.background := by
  unfold chainNodeAt
  rw [if_neg h]

theorem chainNodeAt_stable (n j : Nat) (h1 : j ≠ n) (h2 : j ≠ n + 1) :
    chainNodeAt (n + 1) j = chainNodeAt n j := by
  unfold chainNodeAt
  by_cases hle : j ≤ n
  · rw [if_pos hle, if_pos (by omega), if_pos (by omega : j < n + 1), if_pos (by omega : j < n)]
  · rw [if_neg hle, if_neg (by omega)]

theorem world_ext (w1 w2 : World) (hs : w1.size = w2.size)
    (hn : ∀ j, w1.nodes j = w2.nodes j) (ho : w1.obs = w2.obs) : w1 = w2 := by
  obtain ⟨s1, n1, o1⟩ := w1
  obtain ⟨s2, n2, o2⟩ := w2
  have hs2 : s1 = s2 := hs
  have ho2 : o1 = o2 := ho
  have hn2 : n1 = n2 := funext hn
  subst hs2
  subst ho2
  subst hn2
  rfl

theorem updNode_updNode (w : World) (i : Nat) (f g : CNode → CNode) :
    updNode (updNode w i f) i g = updNode w i (fun m => g (f m)) := by
  unfold updNode
  congr 1
  show Function.update (Function.update w.nodes i (f (w.nodes i))) i
      (g ((Function.update w.nodes i (f (w.nodes i))) i)) =
    Function.update w.nodes i ((fun m => g (f m)) (w.nodes i))
  rw [Function.update_same, Function.update_idem]

theorem markChainFrom_nodes (e : GoError) (i n : Nat) (w : World) (j : Nat) :
    (markChainFrom e i n w).nodes j =
      if i ≤ j ∧ j ≤ n then markCancelled e (w.nodes j) else w.nodes j := rfl

theorem propagateCancel_size (p : Ctx) (cid : Nat) (w : World) :
    (propagateCancel p cid w).size = w.size := by
  unfold propagateCancel
  split
  · rfl
  · split
    · split
      · exact cancelerCancel_size _ _ _ _ _
      · rfl
    · rfl

theorem allocNode_nodes_at (w : World) (nd : CNode) (j : Nat) (h : j = w.size) :
    (allocNode w nd).nodes j = nd := by
  subst h
  exact allocNode_nodes_self w nd

theorem propagateCancel_eq_cref_none (parent : Ctx) (pid : Nat) (pctx : Ctx)
    (hp : parent = Ctx.cref pid pctx) (childId : Nat) (w : World)
    (h : (w.nodes pid).err = none) :
    propagateCancel parent childId w =
      updNode w pid (fun m => { m with children := some (m.children.getD [] ++ [childId]) }) := by
  subst hp
  exact propagateCancel_cref_none w pid childId pctx h

theorem buildChain_spec (n : Nat) :
    (buildChain n).2 = chainCtx n ∧ (buildChain n).1.size = n + 1 ∧
      ∀ j, (buildChain n).1.nodes j = chainNodeAt n j := by
  induction n with
  | zero =>
    refine ⟨rfl, rfl, ?_⟩
    intro j
    show (propagateCancel Ctx.background emptyWorld.size
      (allocNode emptyWorld (newCancelCtx Ctx.background))).nodes j = chainNodeAt 0 j
    rw [propagateCancel_background]
    by_cases hj : j = 0
    · subst hj
      rw [allocNode_nodes_at emptyWorld (newCancelCtx Ctx.background) 0 rfl,
        chainNodeAt_le 0 0 (le_refl 0), if_neg (lt_irrefl 0)]
      rfl
    · rw [allocNode_nodes_ne _ _ _ hj, chainNodeAt_gt 0 j (by omega)]
      rfl
  | succ n ih =>
    obtain ⟨ih2, ihsz, ihnodes⟩ := ih
    have hne : n ≠ (buildChain n).1.size := by
      rw [ihsz]
      omega
    have hpcn : ((allocNode (buildChain n).1 (newCancelCtx (buildChain n).2)).nodes n).err
        = none := by
      rw [allocNode_nodes_ne _ _ _ hne, ihnodes n, chainNodeAt_le n n (le_refl n)]
    have hstep : propagateCancel (buildChain n).2 (buildChain n).1.size
        (allocNode (buildChain n).1 (newCancelCtx (buildChain n).2)) =
        updNode (allocNode (buildChain n).1 (newCancelCtx (buildChain n).2)) n
          (fun m =>
            { m with children := some (m.children.getD [] ++ [(buildChain n).1.size]) }) :=
      propagateCancel_eq_cref_none (buildChain n).2 n (chainParent n)
        (by rw [ih2, chainCtx_eq]) (buildChain n).1.size _ hpcn
    refine ⟨?_, ?_, ?_⟩
    · show Ctx.cref (buildChain n).1.size (buildChain n).2 = chainCtx (n + 1)
      rw [ihsz, ih2]
      rfl
    · show (propagateCancel (buildChain n).2 (buildChain n).1.size
        (allocNode (buildChain n).1 (newCancelCtx (buildChain n).2))).size = n + 1 + 1
      rw [propagateCancel_size, allocNode_size, ihsz]
    · intro j
      show (propagateCancel (buildChain n).2 (buildChain n).1.size
        (allocNode (buildChain n).1 (newCancelCtx (buildChain n).2))).nodes j
        = chainNodeAt (n + 1) j
      rw [hstep]
      by_cases hj1 : j = n
      · subst hj1
        rw [updNode_nodes_self, allocNode_nodes_ne _ _ _ hne, ihnodes j,
          chainNodeAt_le j j (le_refl j), if_neg (lt_irrefl j),
          chainNodeAt_le (j + 1) j (by omega), if_pos (by omega : j < j + 1), ihsz]
        rfl
      · by_cases hj2 : j = n + 1
        · subst hj2
          rw [updNode_nodes_ne _ _ _ _ hj1, allocNode_nodes_at _ _ _ ihsz.symm, ih2,
            chainNodeAt_le (n + 1) (n + 1) (le_refl (n + 1)), if_neg (lt_irrefl (n + 1))]
          rfl
        · rw [updNode_nodes_ne _ _ _ _ hj1,
            allocNode_nodes_ne _ _ _ (by rw [ihsz]; omega), ihnodes j]
          exact (chainNodeAt_stable n j hj1 hj2).symm

theorem cancelCtxCancel_rmfalse_unfold (recur : Nat → Bool → GoError → World → World)
    (id : Nat) (e : GoError) (w : World) (h : (w.nodes id).err = none) :
    cancelCtxCancel recur id false e w = cancelLocked recur id e w := by
  unfold cancelCtxCancel
  rw [if_neg (by simp [h])]
  rfl

theorem chain_cancelLocked (e : GoError) :
    ∀ (k i : Nat) (w : World),
      (∀ j, i ≤ j → j ≤ i + k → w.nodes j = chainNodeAt (i + k) j) →
      ∀ (f : Nat), k ≤ f →
      cancelLocked (cancelerCancel f) i e w = markChainFrom e i (i + k) w := by
  intro k
  induction k with
  | zero =>
    intro i w hyp f _
    have hni : w.nodes i = chainNodeAt (i + 0) i := hyp i (le_refl i) (by omega)
    have hch : (w.nodes i).children = none := by
      rw [hni, chainNodeAt_le (i + 0) i (by omega), if_neg (by omega)]
    unfold cancelLocked
    rw [hch]
    show updNode (updNode w i fun m => { m with err := some e, doneClosed := true }) i
        (fun m => { m with children := none }) = markChainFrom e i (i + 0) w
    rw [updNode_updNode]
    apply world_ext
    · rfl
    · intro j
      rw [markChainFrom_nodes]
      by_cases hj : j = i
      · subst hj
        rw [updNode_nodes_self, if_pos (by omega : j ≤ j ∧ j ≤ j + 0)]
        rfl
      · rw [updNode_nodes_ne _ _ _ _ hj, if_neg (by omega)]
    · rfl
  | succ k ih =>
    intro i w hyp f hf
    have hni : w.nodes i = chainNodeAt (i + (k + 1)) i := hyp i (le_refl i) (by omega)
    have hch : (w.nodes i).children = some [i + 1] := by
      rw [hni, chainNodeAt_le (i + (k + 1)) i (by omega), if_pos (by omega)]
    obtain ⟨g, rfl⟩ : ∃ g, f = g + 1 := ⟨f - 1, by omega⟩
    unfold cancelLocked
    rw [hch]
    show updNode (cancelerCancel (g + 1) (i + 1) false e
        (updNode w i fun m => { m with err := some e, doneClosed := true })) i
      (fun m => { m with children := none }) = markChainFrom e i (i + (k + 1)) w
    have hsuf : ∀ j, i + 1 ≤ j → j ≤ (i + 1) + k →
        (updNode w i fun m => { m with err := some e, doneClosed := true }).nodes j =
          chainNodeAt ((i + 1) + k) j := by
      intro j h1 h2
      rw [updNode_nodes_ne _ _ _ _ (by omega), hyp j (by omega) (by omega)]
      congr 1
      omega
    have hT1 : ((updNode w i fun m =>
        { m with err := some e, doneClosed := true }).nodes (i + 1)).isTimer = false := by
      rw [hsuf (i + 1) (le_refl _) (by omega), chainNodeAt_le _ _ (by omega)]
    have hE1 : ((updNode w i fun m =>
        { m with err := some e, doneClosed := true }).nodes (i + 1)).err = none := by
      rw [hsuf (i + 1) (le_refl _) (by omega), chainNodeAt_le _ _ (by omega)]
    rw [cancelerCancel_nonTimer_unfold g (i + 1) false e _ hT1,
      cancelCtxCancel_rmfalse_unfold _ (i + 1) e _ hE1,
      ih (i + 1) _ hsuf g (by omega)]
    apply world_ext
    · rfl
    · intro j
      rw [markChainFrom_nodes]
      by_cases hj : j = i
      · subst hj
        rw [updNode_nodes_self, markChainFrom_nodes, if_neg (by omega), updNode_nodes_self,
          if_pos (by omega : j ≤ j ∧ j ≤ j + (k + 1))]
        rfl
      · rw [updNode_nodes_ne _ _ _ _ hj, markChainFrom_nodes]
        by_cases hjr : i + 1 ≤ j ∧ j ≤ (i + 1) + k
        · rw [if_pos hjr, if_pos (by omega : i ≤ j ∧ j ≤ i + (k + 1)),
            updNode_nodes_ne _ _ _ _ hj]
        · rw [if_neg hjr, if_neg (by omega), updNode_nodes_ne _ _ _ _ hj]
    · rfl

theorem chain_cascade (e : GoError) (k i : Nat) (w : World)
    (hyp : ∀ j, i ≤ j → j ≤ i + k → w.nodes j = chainNodeAt (i + k) j)
    (f : Nat) (hf : k ≤ f) (rm : Bool) :
    cancelerCancel (f + 1) i rm e w =
      (if rm then removeChild (chainParent i) i (markChainFrom e i (i + k) w)
       else markChainFrom e i (i + k) w) := by
  have hni : w.nodes i = chainNodeAt (i + k) i := hyp i (le_refl i) (by omega)
  have hT : (w.nodes i).isTimer = false := by
    rw [hni, chainNodeAt_le _ _ (by omega)]
  have hE : (w.nodes i).err = none := by
    rw [hni, chainNodeAt_le _ _ (by omega)]
  have hP : (w.nodes i).parent = chainParent i := by
    rw [hni, chainNodeAt_le _ _ (by omega)]
  rw [cancelerCancel_nonTimer_unfold f i rm e w hT]
  cases rm with
  | false =>
    rw [cancelCtxCancel_rmfalse_unfold _ i e w hE]
    simpa using chain_cancelLocked e k i w hyp f hf
  | true =>
    rw [cancelCtxCancel_rm_unfold _ i e w hE, hP, chain_cancelLocked e k i w hyp f hf,
      if_pos rfl]

/-- Claim C1: in the chain built by repeated `WithCancel` derivation (every
link through the registry path), cancelling the head node via its cancel
function cancels every transitively derived descendant: each descendant's
done signal fires and each descendant's recorded error equals the error
recorded on the head, namely `context canceled`. -/
theorem c1_parent_cancel_cascades (n m : Nat) (hm : m ≤ n) :
    ctxDoneClosed (cancelCall (chainCtx 0) GoError.canceled (buildChain n).1)
      (chainCtx m) = true ∧
    ctxErr (cancelCall (chainCtx 0) GoError.canceled (buildChain n).1) (chainCtx m) =
      ctxErr (cancelCall (chainCtx 0) GoError.canceled (buildChain n).1) (chainCtx 0) ∧
    ctxErr (cancelCall (chainCtx 0) GoError.canceled (buildChain n).1) (chainCtx 0) =
      some GoError.canceled := by
  obtain ⟨-, hsz, hnodes⟩ := buildChain_spec n
  have hyp : ∀ j, 0 ≤ j → j ≤ 0 + n → (buildChain n).1.nodes j = chainNodeAt (0 + n) j := by
    intro j _ _
    rw [hnodes j]
    congr 1
    omega
  have hcall : cancelCall (chainCtx 0) GoError.canceled (buildChain n).1 =
      markChainFrom GoError.canceled 0 (0 + n) (buildChain n).1 := by
    show cancelerCancel ((buildChain n).1.size + 1) 0 true GoError.canceled (buildChain n).1 =
      markChainFrom GoError.canceled 0 (0 + n) (buildChain n).1
    rw [hsz, chain_cascade GoError.canceled n 0 (buildChain n).1 hyp (n + 1) (by omega) true,
      if_pos rfl, removeChild_pcc_none (chainParent 0) 0 _ rfl]
  have hmark : ∀ j, j ≤ n →
      (markChainFrom GoError.canceled 0 (0 + n) (buildChain n).1).nodes j =
        markCancelled GoError.canceled ((buildChain n).1.nodes j) := by
    intro j hj
    rw [markChainFrom_nodes, if_pos (by omega : 0 ≤ j ∧ j ≤ 0 + n)]
  have herrm : ∀ j, j ≤ n →
      ctxErr (cancelCall (chainCtx 0) GoError.canceled (buildChain n).1) (chainCtx j) =
        some GoError.canceled := by
    intro j hj
    rw [chainCtx_eq j]
    show ((cancelCall (chainCtx 0) GoError.canceled (buildChain n).1).nodes j).err =
      some GoError.canceled
    rw [hcall, hmark j hj]
    rfl
  refine ⟨?_, ?_, herrm 0 (by omega)⟩
  · rw [chainCtx_eq m]
    show ((cancelCall (chainCtx 0) GoError.canceled (buildChain n).1).nodes m).doneClosed = true
    rw [hcall, hmark m hm]
    rfl
  · rw [herrm m hm, herrm 0 (by omega)]

/-- Witness for C1: the chain Background, node 0, node 1, node 2; cancelling
node 0 fires node 2's signal and sets its error to node 0's error. -/
theorem c1_witness :
    2 ≤ 2 ∧
    (ctxDoneClosed (cancelCall (chainCtx 0) GoError.canceled (buildChain 2).1)
        (chainCtx 2) = true ∧
      ctxErr (cancelCall (chainCtx 0) GoError.canceled (buildChain 2).1) (chainCtx 2) =
        ctxErr (cancelCall (chainCtx 0) GoError.canceled (buildChain 2).1) (chainCtx 0) ∧
      ctxErr (cancelCall (chainCtx 0) GoError.canceled (buildChain 2).1) (chainCtx 0) =
        some GoError.canceled) :=
  ⟨by decide, c1_parent_cancel_cascades 2 2 (by decide)⟩

end GoCtx
